import Mathlib

/-!
Shallow embedding of the brontesLVR cache/refresh engine
(src/brontesLVR/{application,running_total,median,block_LVR}.py) and proofs
about its specified properties.

Modelling conventions, used throughout:
* Python `int` is modelled as `Int`; Python `float` metric values are modelled
  as `Rat` (all values handled by the claims are exact).
* A Python `dict` is an association list with distinct keys; `dict.update` is
  `dictUpdate` (overwrite existing keys, append new ones in order).
* The external ClickHouse store is modelled as an arbitrary table of rows; the
  state-independent WHERE clauses (pool allow-list, zero-address filters) are
  considered already applied to that table, while the state-dependent block
  bound of each query is applied explicitly by the gateway model.
* A query that raises is modelled as the upstream argument being `none`.
* `time.time()` is an `Int` parameter `now`; `time.sleep` only contributes to
  an accounted delay total in the retry model.
-/

namespace LVR

/-- Constants from application.py / running_total.py / median.py / block_LVR.py. -/
def MERGE_BLOCK : Int := 15537393

/-- BLOCK_RANGE = 100000, the fixed bucket width of the running-total series. -/
def BLOCK_RANGE : Int := 100000

/-- PAGE_SIZE = 100 rows per page (application.py, block_LVR.py). -/
def PAGE_SIZE : Int := 100

/-- MAX_RETRIES = 3 (running_total.py, median.py; defined but unused in application.py). -/
def MAX_RETRIES : Nat := 3

/-- RETRY_DELAY = 5 seconds between retry attempts. -/
def RETRY_DELAY : Nat := 5

/-- CACHE_TIMEOUT = 300 in application.py (used by MedianLVRFetcher.update_cache). -/
def APP_CACHE_TIMEOUT : Int := 300

/-- CACHE_TIMEOUT = 60 in running_total.py (used by get_data). -/
def RT_CACHE_TIMEOUT : Int := 60

/-- CACHE_TIMEOUT = 300 in median.py (used by get_median_lvr). -/
def MED_CACHE_TIMEOUT : Int := 300

/-- UPDATE_INTERVAL = 60 in block_LVR.py (used by update_cache). -/
def BLOCK_UPDATE_INTERVAL : Int := 60

/-- Rows of the raw-metric queries: (block_number, total_lvr). -/
abbrev Table := List (Int × Rat)

/-- Rows of the median queries: (pool_address, median_lvr, max_block_num). -/
abbrev MedTable := List (String × Rat × Int)

/-- Keys of an association list (a Python dict's key view). -/
def dictKeys {κ ν : Type} (d : List (κ × ν)) : List κ := d.map Prod.fst

/-- Python `k in d`. -/
def containsKey {κ ν : Type} [DecidableEq κ] (d : List (κ × ν)) (k : κ) : Bool :=
  d.any (fun p => decide (p.1 = k))

/-- Python `d[k]` with a default (callers only use it when the key is present,
or through defaultdict semantics). -/
def lookupD {κ ν : Type} [DecidableEq κ] (d : List (κ × ν)) (k : κ) (dflt : ν) : ν :=
  match d.find? (fun p => decide (p.1 = k)) with
  | some p => p.2
  | none => dflt

/-- Python `d[k] = v`: overwrite the entry if the key is present, else append. -/
def dictInsert {κ ν : Type} [DecidableEq κ] (d : List (κ × ν)) (k : κ) (v : ν) : List (κ × ν) :=
  if containsKey d k then d.map (fun p => if p.1 = k then (p.1, v) else p)
  else d ++ [(k, v)]

/-- Python `d.update(new)`. -/
def dictUpdate {κ ν : Type} [DecidableEq κ] (d new : List (κ × ν)) : List (κ × ν) :=
  new.foldl (fun acc p => dictInsert acc p.1 p.2) d

/-- One step of the SQL `GROUP BY block_number` + `sum(...)` aggregation:
fold a row into the accumulated per-block sums. -/
def addRow (acc : Table) (r : Int × Rat) : Table :=
  if containsKey acc r.1 then acc.map (fun p => if p.1 = r.1 then (p.1, p.2 + r.2) else p)
  else acc ++ [r]

/-- SQL `SELECT block_number, sum(...) GROUP BY block_number` over a row table. -/
def groupSum (rows : Table) : Table := rows.foldl addRow []

/-- Python `max(...)` over the keys of a non-empty dict, with a default for `[]`
(callers guard the empty case). -/
def maxKeyD (d : Table) (dflt : Int) : Int :=
  match d with
  | [] => dflt
  | p :: ps => (dictKeys ps).foldl max p.1

/-- Python `min(...)`-style head of the ascending-sorted key list, with default. -/
def minKeyD (d : Table) (dflt : Int) : Int :=
  match d with
  | [] => dflt
  | p :: ps => (dictKeys ps).foldl min p.1

/-! ### Running-total aggregator

`calculate_running_total` is duplicated verbatim in application.py (lines
171-189) and running_total.py (lines 140-158), reading the module constants
MERGE_BLOCK and BLOCK_RANGE; it is embedded here with those two constants as
explicit parameters `genesis` and `bucket` and is instantiated with
`MERGE_BLOCK`/`BLOCK_RANGE` at its call sites.  `sorted(data.keys())[0]` and
`sorted(data.keys())[-1]` are the minimum and maximum key, embedded as
`minKeyD`/`maxKeyD`. -/

/-- Python `range(a, b)` over integers. -/
def intRange (a b : Int) : List Int :=
  (List.range (b - a).toNat).map (fun i : Nat => a + (i : Int))

/-- Emission condition of the running-total loop:
`(block - MERGE_BLOCK) % BLOCK_RANGE == 0 or block == last_block`.
Python `%` with a positive modulus agrees with `Int.emod`. -/
def emitCond (genesis bucket last b : Int) : Bool :=
  decide ((b - genesis) % bucket = 0 ∨ b = last)

/-- Body of the `for block in range(first_block, last_block + 1)` loop. -/
def rtLoop (data : Table) (genesis bucket last : Int) : List Int → Rat → List (Int × Rat)
  | [], _ => []
  | b :: bs, running =>
    let running' := if containsKey data b then running + lookupD data b 0 else running
    (if emitCond genesis bucket last b then [(b, running')] else []) ++
      rtLoop data genesis bucket last bs running'

/-- calculate_running_total (application.py:171, running_total.py:140). -/
def calculate_running_total (genesis bucket : Int) (data : Table) : List (Int × Rat) :=
  let first_block := minKeyD data genesis
  let last_block := maxKeyD data genesis
  rtLoop data genesis bucket last_block (intRange first_block (last_block + 1)) 0

/-- Contribution of one block to the running sum: `data[block]` when present,
`0` otherwise (a gap contributes zero). -/
def contrib (data : Table) (b : Int) : Rat :=
  if containsKey data b then lookupD data b 0 else 0

/-- Sum of contributions over a list of blocks. -/
def sumContrib (data : Table) (bs : List Int) : Rat := (bs.map (contrib data)).sum

/-! ### application.py DataFetcher (raw-metric domain, lines 65-105) -/

/-- Mutable state of `DataFetcher`: `cached_data` (a defaultdict, initially
empty) and the watermark `last_queried_block`. -/
structure DataFetcherState where
  cached_data : Table
  last_queried_block : Int

/-- DataFetcher.__init__: empty cache, watermark at the genesis constant. -/
def dataFetcherInit : DataFetcherState :=
  { cached_data := [], last_queried_block := MERGE_BLOCK }

/-- Result rows of the DataFetcher query: rows with
`block_number > last_queried_block`, grouped and summed per block. -/
def appFetchRows (table : Table) (w : Int) : Table :=
  groupSum (table.filter (fun r => decide (w < r.1)))

/-- DataFetcher.fetch_data (application.py:71-105).  `upstream = none` models a
`ProtocolError`/`ClickHouseError` raised by the query: the handler catches it
and returns `{}` without touching the state (there is no retry loop here).
On success the new rows are merged with `dict.update` and, when the result is
non-empty, the watermark becomes the maximum block of the result. -/
def dataFetcherFetchData (s : DataFetcherState) (upstream : Option Table) : DataFetcherState :=
  match upstream with
  | none => s
  | some table =>
    let new_data := appFetchRows table s.last_queried_block
    { cached_data := dictUpdate s.cached_data new_data,
      last_queried_block :=
        if new_data.isEmpty then s.last_queried_block
        else maxKeyD new_data s.last_queried_block }

/-- GET /lvr_running_total (application.py:191-197): unconditionally calls
`data_fetcher.fetch_data()` (no staleness gate, no time parameter exists for
this fetcher), then derives the running-total series from the updated cache. -/
def appGetLvrRunningTotal (s : DataFetcherState) (upstream : Option Table) :
    DataFetcherState × List (Int × Rat) :=
  let s' := dataFetcherFetchData s upstream
  (s', calculate_running_total MERGE_BLOCK BLOCK_RANGE s'.cached_data)

/-! ### running_total.py free-function fetcher (raw-metric domain, lines 73-183)

State is the module globals `cached_data`, `last_fetch_time`,
`last_fetched_block`.  `fetch_data(start_block)` retries internally (see the
retry model below); at this level `upstream = none` models the exception it
re-raises after exhausting retries. -/

structure RTState where
  cached_data : Table
  last_fetch_time : Int
  last_fetched_block : Int

/-- Result rows of running_total.py fetch_data(start_block): the query keeps
`block_number >= MERGE_BLOCK` always, and adds `block_number > start_block`
only when `start_block` is truthy (Python `if start_block`; `None` is encoded
as `0`, which is also falsy and below every real block number). -/
def rtFetchRows (table : Table) (start_block : Int) : Table :=
  groupSum (table.filter (fun r =>
    decide (MERGE_BLOCK ≤ r.1) && (decide (start_block = 0) || decide (start_block < r.1))))

/-- get_data (running_total.py:121-138).  When the cache is stale
(`now - last_fetch_time > CACHE_TIMEOUT`) it fetches rows newer than the
watermark; on success it merges them, advances the watermark when non-empty,
and sets `last_fetch_time = now`.  The `last_fetch_time` assignment sits
inside the `try` block, so on a raised fetch error nothing at all changes. -/
def rtGetData (s : RTState) (now : Int) (upstream : Option Table) : RTState :=
  if RT_CACHE_TIMEOUT < now - s.last_fetch_time then
    match upstream with
    | none => s
    | some table =>
      let new_data := rtFetchRows table s.last_fetched_block
      if new_data.isEmpty then { s with last_fetch_time := now }
      else { cached_data := dictUpdate s.cached_data new_data,
             last_fetch_time := now,
             last_fetched_block := maxKeyD new_data s.last_fetched_block }
  else s

/-- initialize_cache (running_total.py:168-183): one blocking fetch with
`start_block=None`; on success the cache is the whole result (even when empty)
and the watermark is its maximum block when non-empty; on error the globals
keep their initial values (`{}` / `MERGE_BLOCK`). -/
def rtInitCache (upstream : Option Table) : RTState :=
  match upstream with
  | none => { cached_data := [], last_fetch_time := 0, last_fetched_block := MERGE_BLOCK }
  | some table =>
    let d := rtFetchRows table 0
    { cached_data := d,
      last_fetch_time := 0,
      last_fetched_block := if d.isEmpty then MERGE_BLOCK else maxKeyD d MERGE_BLOCK }

/-! ### Median fetchers

Rows of the median queries are modelled as (pool_address, median_lvr,
max_block_num) triples.  The SQL median computation itself
(`quantileExact(0.5)` over each pool's latest window) is carried opaquely in
the second component — no claim depends on its numeric value — while the
state-dependent `block_number >= last_queried_block` bound is modelled as a
filter on the third component, which in the source is a MAX over exactly the
blocks passing that bound. -/

/-- Rows surviving the `block_number >= last_queried_block` bound of the
median queries. -/
def medFetchRows (table : MedTable) (w : Int) : MedTable :=
  table.filter (fun r => decide (w ≤ r.2.2))

/-- Python `max(result[2] for result in results)` with a default for `[]`
(callers guard the empty case). -/
def maxThirdD (rows : MedTable) (dflt : Int) : Int :=
  match rows with
  | [] => dflt
  | r :: rs => (rs.map (fun q => q.2.2)).foldl max r.2.2

/-! #### application.py MedianLVRFetcher (lines 107-166) -/

structure MedAppState where
  cached_median_lvr : List (String × Rat)
  last_queried_block : Int
  last_update_time : Int

/-- MedianLVRFetcher.__init__. -/
def medAppInit : MedAppState :=
  { cached_median_lvr := [], last_queried_block := MERGE_BLOCK, last_update_time := 0 }

/-- MedianLVRFetcher.fetch_median_lvr (application.py:120-162).  Every
exception is caught by its blanket `except Exception` (`upstream = none`);
an empty result only logs a warning.  On a non-empty result the cache is
merged per lower-cased pool address and the watermark becomes the maximum
observed block. -/
def medAppFetchMedianLvr (s : MedAppState) (upstream : Option MedTable) : MedAppState :=
  match upstream with
  | none => s
  | some table =>
    let rows := medFetchRows table s.last_queried_block
    if rows.isEmpty then s
    else
      { s with
        cached_median_lvr :=
          dictUpdate s.cached_median_lvr (rows.map (fun r => (r.1.toLower, r.2.1))),
        last_queried_block := maxThirdD rows s.last_queried_block }

/-- MedianLVRFetcher.update_cache (application.py:114-118): staleness gate;
when due, fetch (which swallows its own errors) and then unconditionally set
`last_update_time = now`.  The Bool reports whether a fetch was attempted. -/
def medAppUpdateCache (s : MedAppState) (now : Int) (upstream : Option MedTable) :
    MedAppState × Bool :=
  if APP_CACHE_TIMEOUT < now - s.last_update_time then
    ({ medAppFetchMedianLvr s upstream with last_update_time := now }, true)
  else (s, false)

/-- GET /median_lvr (application.py:232-241): refresh through the gate, read a
copy of the cache, answer 500 `{"error": ...}` when it is empty, otherwise the
list of all (pool_address, median_lvr) pairs. -/
def appGetMedianLvrApi (s : MedAppState) (now : Int) (upstream : Option MedTable) :
    Except String (List (String × Rat)) × MedAppState :=
  let s' := (medAppUpdateCache s now upstream).1
  (if s'.cached_median_lvr.isEmpty then Except.error "No median LVR data available"
   else Except.ok s'.cached_median_lvr, s')

/-! #### median.py free-function fetcher (lines 71-181) -/

structure MedPyState where
  cached_median_lvr : List (String × Rat)
  last_fetch_time : Int
  last_queried_block : Int

/-- get_median_lvr (median.py:140-156).  When stale, calls fetch_median_lvr
(which retries internally and re-raises after exhausting retries,
`upstream = none` here).  On success it merges a non-empty result (the fetch
itself advanced the watermark global) and sets `last_fetch_time = now`; that
assignment sits inside the `try`, so a raised error changes nothing. -/
def medpyGetMedianLvr (s : MedPyState) (now : Int) (upstream : Option MedTable) : MedPyState :=
  if MED_CACHE_TIMEOUT < now - s.last_fetch_time then
    match upstream with
    | none => s
    | some table =>
      let rows := medFetchRows table s.last_queried_block
      if rows.isEmpty then { s with last_fetch_time := now }
      else
        { cached_median_lvr :=
            dictUpdate s.cached_median_lvr (rows.map (fun r => (r.1.toLower, r.2.1))),
          last_fetch_time := now,
          last_queried_block := maxThirdD rows s.last_queried_block }
  else s

/-! ### block_LVR.py fetcher (lines 73-157) -/

structure BlockLVRState where
  cached_data : Table
  last_update_time : Int
  last_queried_block : Int

/-- Module globals of block_LVR.py: note the watermark starts at 0 here. -/
def blockInit : BlockLVRState :=
  { cached_data := [], last_update_time := 0, last_queried_block := 0 }

/-- Result rows of block_LVR.py fetch_data(start_block). -/
def blockFetchRows (table : Table) (start_block : Int) : Table :=
  groupSum (table.filter (fun r => decide (start_block < r.1)))

/-- update_cache (block_LVR.py:111-124).  Staleness-gated; when due it fetches
(block_LVR's fetch_data catches ProtocolError/ClickHouseError itself and
returns `{}`, so `upstream = none` models only a non-retryable exception,
which aborts the `try` before any assignment), merges, advances the watermark
on non-empty data and sets `last_update_time = now`.  The Bool reports whether
a fetch was attempted. -/
def blockUpdateCache (s : BlockLVRState) (now : Int) (upstream : Option Table) :
    BlockLVRState × Bool :=
  if BLOCK_UPDATE_INTERVAL < now - s.last_update_time then
    (match upstream with
     | none => s
     | some table =>
       let new_data := blockFetchRows table s.last_queried_block
       { cached_data := dictUpdate s.cached_data new_data,
         last_update_time := now,
         last_queried_block :=
           if new_data.isEmpty then s.last_queried_block
           else maxKeyD new_data s.last_queried_block }, true)
  else (s, false)

/-! ### Table view (application.py get_lvr_table, lines 199-230; identical
logic in block_LVR.py, lines 126-157) -/

/-- Descending insertion of one entry (keys of a dict snapshot are distinct,
so `sorted(items, reverse=True)` is exactly a descending sort by key). -/
def insertDesc (p : Int × Rat) : Table → Table
  | [] => [p]
  | q :: qs => if q.1 ≤ p.1 then p :: q :: qs else q :: insertDesc p qs

/-- Python `sorted(cached_data.items(), reverse=True)`. -/
def sortDesc : Table → Table
  | [] => []
  | p :: ps => insertDesc p (sortDesc ps)

/-- Python `total_pages = (len(sorted_data) - 1) // PAGE_SIZE + 1`.
Python `//` is floor division, `Int.fdiv`; for `count = 0` this evaluates to
`(-1) // 100 + 1 = -1 + 1 = 0`. -/
def totalPagesOf (count : Nat) : Int := Int.fdiv ((count : Int) - 1) PAGE_SIZE + 1

/-- Python list slice `l[a:b]` for the non-negative indices used here. -/
def pySlice {α : Type} (l : List α) (a b : Int) : List α :=
  (l.drop a.toNat).take (b - a).toNat

/-- Responses of the /lvr_table handler after the page number is known. -/
inductive TableResponse where
  | invalidPage
  | page (data : Table) (total_pages current_page last_queried_block : Int)
  deriving DecidableEq

/-- get_lvr_table core (application.py:204-230, block_LVR.py:131-157): sort
descending, compute total_pages, reject a page outside [1, total_pages] with
the distinct 400 error, else slice the requested page. -/
def get_lvr_table (cache : Table) (page : Int) (wm : Int) : TableResponse :=
  let sorted_data := sortDesc cache
  let total_pages := totalPagesOf sorted_data.length
  if page < 1 ∨ total_pages < page then TableResponse.invalidPage
  else
    TableResponse.page
      (pySlice sorted_data ((page - 1) * PAGE_SIZE) ((page - 1) * PAGE_SIZE + PAGE_SIZE))
      total_pages page wm

/-! ### Retry loop of fetch_data / fetch_median_lvr
(running_total.py:106-119, median.py:121-138)

```
for attempt in range(MAX_RETRIES):
    try:
        ... return ...
    except (ProtocolError, ClickHouseError) as e:
        if attempt < MAX_RETRIES - 1:
            time.sleep(RETRY_DELAY)
        else:
            raise
```

The upstream is a function from the attempt index to that attempt's outcome.
Any exception other than ProtocolError/ClickHouseError is not caught by the
`except` clause and propagates at once. -/

/-- Failure classes of one query attempt. -/
inductive UpErr where
  | retryable
  | fatal
  deriving DecidableEq

/-- The loop body from attempt index `attempt` with `fuel` iterations left;
returns (outcome, attempts actually made, total seconds slept). -/
def retryGo {α : Type} (outcomes : Nat → Except UpErr α) : Nat → Nat → Except UpErr α × Nat × Nat
  | _, 0 => (Except.error UpErr.retryable, 0, 0)
  | attempt, fuel + 1 =>
    match outcomes attempt with
    | Except.ok a => (Except.ok a, 1, 0)
    | Except.error UpErr.fatal => (Except.error UpErr.fatal, 1, 0)
    | Except.error UpErr.retryable =>
      if attempt < MAX_RETRIES - 1 then
        let r := retryGo outcomes (attempt + 1) fuel
        (r.1, r.2.1 + 1, r.2.2 + RETRY_DELAY)
      else (Except.error UpErr.retryable, 1, 0)

/-- The whole `for attempt in range(MAX_RETRIES)` loop. -/
def fetchWithRetry {α : Type} (outcomes : Nat → Except UpErr α) : Except UpErr α × Nat × Nat :=
  retryGo outcomes 0 MAX_RETRIES

/-- DataFetcher.fetch_data's error handling (application.py:91-105): a single
attempt, whose retryable errors are caught and converted to an empty result;
the pair records (outcome as seen by the caller, attempts made). -/
def dataFetcherAttempt (outcome : Except UpErr Table) : Except UpErr Table × Nat :=
  match outcome with
  | Except.ok t => (Except.ok t, 1)
  | Except.error UpErr.retryable => (Except.ok [], 1)
  | Except.error UpErr.fatal => (Except.error UpErr.fatal, 1)

/-! ### /lvr_table page-parameter handling (application.py:199-230)

`page = int(request.args.get('page', 1))` runs after the unconditional
`data_fetcher.fetch_data()` but before the cache is read or the page range is
checked; a `ValueError` from `int(...)` propagates out of the handler
uncaught.  Python `int(str)` in base 10 accepts optional surrounding Unicode
whitespace, one optional ASCII sign, and a non-empty run of Unicode decimal
digits with single underscores permitted between digits (PEP 515); anything
else raises ValueError.  The whitespace and decimal-digit tables below are
the ones CPython's str.isspace and unicodedata.decimal implement (every
Unicode decimal-digit block is a contiguous run of ten codepoints starting at
that script's zero). -/

/-- Codepoints CPython treats as whitespace when stripping around `int(str)`. -/
def pyWhitespaceCodes : List Nat :=
  [0x9, 0xA, 0xB, 0xC, 0xD, 0x1C, 0x1D, 0x1E, 0x1F, 0x20, 0x85, 0xA0, 0x1680,
   0x2000, 0x2001, 0x2002, 0x2003, 0x2004, 0x2005, 0x2006, 0x2007, 0x2008, 0x2009,
   0x200A, 0x2028, 0x2029, 0x202F, 0x205F, 0x3000]

/-- Whitespace stripped by Python `int(str)`. -/
def isPySpace (c : Char) : Bool := pyWhitespaceCodes.any (fun n => decide (c.toNat = n))

/-- Zero codepoint of every Unicode decimal-digit (Nd) block; each block is
the ten consecutive codepoints from its zero. -/
def decimalZeroCodes : List Nat :=
  [0x30, 0x660, 0x6F0, 0x7C0, 0x966, 0x9E6, 0xA66, 0xAE6, 0xB66, 0xBE6, 0xC66,
   0xCE6, 0xD66, 0xDE6, 0xE50, 0xED0, 0xF20, 0x1040, 0x1090, 0x17E0, 0x1810,
   0x1946, 0x19D0, 0x1A80, 0x1A90, 0x1B50, 0x1BB0, 0x1C40, 0x1C50, 0xA620,
   0xA8D0, 0xA900, 0xA9D0, 0xA9F0, 0xAA50, 0xABF0, 0xFF10, 0x104A0, 0x10D30,
   0x11066, 0x110F0, 0x11136, 0x111D0, 0x112F0, 0x11450, 0x114D0, 0x11650,
   0x116C0, 0x11730, 0x118E0, 0x11950, 0x11C50, 0x11D50, 0x11DA0, 0x16A60,
   0x16AC0, 0x16B50, 0x1D7CE, 0x1D7D8, 0x1D7E2, 0x1D7EC, 0x1D7F6, 0x1E140,
   0x1E2F0, 0x1E950, 0x1FBF0]

/-- Decimal value of one Unicode decimal-digit character (none otherwise). -/
def pyDigitVal (c : Char) : Option Nat :=
  match decimalZeroCodes.find? (fun z => decide (z ≤ c.toNat) && decide (c.toNat ≤ z + 9)) with
  | some z => some (c.toNat - z)
  | none => none

/-- Continuation of a digit run after at least one digit: further digits, with
at most one underscore between two digits (PEP 515). -/
def digitsTail (acc : Nat) : List Char → Option Nat
  | [] => some acc
  | '_' :: c :: cs =>
    (match pyDigitVal c with
     | some d => digitsTail (acc * 10 + d) cs
     | none => none)
  | '_' :: [] => none
  | c :: cs =>
    (match pyDigitVal c with
     | some d => digitsTail (acc * 10 + d) cs
     | none => none)

/-- Python's base-10 digitpart: `digit (["_"] digit)*`. -/
def digitPart : List Char → Option Nat
  | [] => none
  | c :: cs =>
    (match pyDigitVal c with
     | some d => digitsTail d cs
     | none => none)

/-- Python `int(str)`: `none` models a raised ValueError. -/
def pyParseInt (s : String) : Option Int :=
  let cs := (s.data.dropWhile isPySpace).reverse.dropWhile isPySpace |>.reverse
  match cs with
  | '-' :: rest => (digitPart rest).map (fun v => -(v : Int))
  | '+' :: rest => (digitPart rest).map (fun v => (v : Int))
  | rest => (digitPart rest).map (fun v => (v : Int))

/-- HTTP-level outcomes of the /lvr_table handler. -/
inductive HttpOutcome where
  | uncaughtError
  | badPage
  | ok (resp : TableResponse)
  deriving DecidableEq

/-- GET /lvr_table (application.py:199-230): unconditional fetch, then parse
the page parameter (default "1"), then read the cache and page it. -/
def appGetLvrTableHandler (s : DataFetcherState) (upstream : Option Table)
    (pageParam : Option String) : DataFetcherState × HttpOutcome :=
  let s' := dataFetcherFetchData s upstream
  match (match pageParam with | none => some 1 | some str => pyParseInt str) with
  | none => (s', HttpOutcome.uncaughtError)
  | some page =>
    match get_lvr_table s'.cached_data page s'.last_queried_block with
    | TableResponse.invalidPage => (s', HttpOutcome.badPage)
    | TableResponse.page d tp cp wm => (s', HttpOutcome.ok (TableResponse.page d tp cp wm))

/-- GET /median_lvr in median.py (lines 158-164): read through
get_median_lvr and answer the (pool_address, median_lvr) list.  Unlike the
application.py variant this handler has no error branch: an empty cache is
answered as the empty list with HTTP 200.  The response type mirrors the
application.py variant's `Except` shape so the two endpoints are comparable;
this handler only ever produces the `ok` alternative. -/
def medpyGetMedianLvrApi (s : MedPyState) (now : Int) (upstream : Option MedTable) :
    Except String (List (String × Rat)) × MedPyState :=
  let s' := medpyGetMedianLvr s now upstream
  (Except.ok s'.cached_median_lvr, s')

/-! ## Proofs -/

theorem dictUpdate_nil {κ ν : Type} [DecidableEq κ] (d : List (κ × ν)) :
    dictUpdate d [] = d := rfl

theorem mem_dictKeys_dictInsert {κ ν : Type} [DecidableEq κ] {d : List (κ × ν)} {k' k : κ} {v : ν}
    (h : k' ∈ dictKeys (dictInsert d k v)) : k' ∈ dictKeys d ∨ k' = k := by
  unfold dictInsert at h
  split at h
  · left
    unfold dictKeys at h ⊢
    rw [List.map_map] at h
    rcases List.mem_map.mp h with ⟨p, hp, hpk⟩
    refine List.mem_map.mpr ⟨p, hp, ?_⟩
    by_cases hc : p.1 = k <;> simp [Function.comp, hc] at hpk <;> simp [hpk, hc]
  · unfold dictKeys at h
    rw [List.map_append] at h
    rcases List.mem_append.mp h with h1 | h2
    · exact Or.inl h1
    · right
      simpa using h2

theorem length_le_dictInsert {κ ν : Type} [DecidableEq κ] (d : List (κ × ν)) (k : κ) (v : ν) :
    d.length ≤ (dictInsert d k v).length := by
  unfold dictInsert
  split
  · simp
  · simp

theorem mem_dictKeys_dictUpdate {κ ν : Type} [DecidableEq κ] {d new : List (κ × ν)} {k : κ}
    (h : k ∈ dictKeys (dictUpdate d new)) : k ∈ dictKeys d ∨ k ∈ dictKeys new := by
  induction new generalizing d with
  | nil => exact Or.inl h
  | cons p ps ih =>
    have h' : k ∈ dictKeys (dictUpdate (dictInsert d p.1 p.2) ps) := h
    rcases ih h' with h1 | h2
    · rcases mem_dictKeys_dictInsert h1 with h3 | h4
      · exact Or.inl h3
      · exact Or.inr (by simp [dictKeys, h4])
    · exact Or.inr (by simp [dictKeys] at h2 ⊢; exact Or.inr h2)

theorem length_le_dictUpdate {κ ν : Type} [DecidableEq κ] (d new : List (κ × ν)) :
    d.length ≤ (dictUpdate d new).length := by
  induction new generalizing d with
  | nil => exact le_refl _
  | cons p ps ih =>
    exact le_trans (length_le_dictInsert d p.1 p.2) (ih (dictInsert d p.1 p.2))

theorem mem_dictKeys_addRow {acc : Table} {r : Int × Rat} {k : Int}
    (h : k ∈ dictKeys (addRow acc r)) : k ∈ dictKeys acc ∨ k = r.1 := by
  unfold addRow at h
  split at h
  · left
    unfold dictKeys at h ⊢
    rw [List.map_map] at h
    rcases List.mem_map.mp h with ⟨p, hp, hpk⟩
    refine List.mem_map.mpr ⟨p, hp, ?_⟩
    by_cases hc : p.1 = r.1 <;> simp [Function.comp, hc] at hpk <;> simp [hpk, hc]
  · unfold dictKeys at h
    rw [List.map_append] at h
    rcases List.mem_append.mp h with h1 | h2
    · exact Or.inl h1
    · right
      simpa using h2

theorem mem_dictKeys_foldl_addRow {k : Int} :
    ∀ (rows acc : Table), k ∈ dictKeys (rows.foldl addRow acc) →
      k ∈ dictKeys acc ∨ k ∈ dictKeys rows := by
  intro rows
  induction rows with
  | nil => intro acc h'; exact Or.inl h'
  | cons r rs ih =>
    intro acc h'
    rcases ih (addRow acc r) h' with h1 | h2
    · rcases mem_dictKeys_addRow h1 with h3 | h4
      · exact Or.inl h3
      · exact Or.inr (by simp [dictKeys, h4])
    · exact Or.inr (by simp [dictKeys] at h2 ⊢; exact Or.inr h2)

theorem mem_dictKeys_groupSum {rows : Table} {k : Int}
    (h : k ∈ dictKeys (groupSum rows)) : k ∈ dictKeys rows := by
  rcases mem_dictKeys_foldl_addRow rows [] h with h1 | h2
  · simp [dictKeys] at h1
  · exact h2

theorem le_foldl_max (l : List Int) (a : Int) : a ≤ l.foldl max a := by
  induction l generalizing a with
  | nil => exact le_refl a
  | cons x xs ih => exact le_trans (le_max_left a x) (ih (max a x))

theorem foldl_min_le (l : List Int) (a : Int) : l.foldl min a ≤ a := by
  induction l generalizing a with
  | nil => exact le_refl a
  | cons x xs ih => exact le_trans (ih (min a x)) (min_le_left a x)

theorem minKeyD_le_maxKeyD {d : Table} (h : d ≠ []) (dflt dflt' : Int) :
    minKeyD d dflt ≤ maxKeyD d dflt' := by
  match d with
  | [] => exact absurd rfl h
  | p :: ps =>
    exact le_trans (foldl_min_le (dictKeys ps) p.1) (le_foldl_max (dictKeys ps) p.1)

theorem intRange_empty {a b : Int} (h : b ≤ a) : intRange a b = [] := by
  unfold intRange
  have : (b - a).toNat = 0 := by omega
  simp [this]

theorem intRange_cons {a b : Int} (h : a < b) :
    intRange a b = a :: intRange (a + 1) b := by
  unfold intRange
  have h1 : (b - a).toNat = (b - (a + 1)).toNat + 1 := by omega
  rw [h1, List.range_succ_eq_map]
  simp only [List.map_cons, List.map_map]
  congr 1
  · simp
  · apply List.map_congr_left
    intro i _
    simp [Function.comp]
    ring

theorem mem_intRange {a b x : Int} (h : x ∈ intRange a b) : a ≤ x ∧ x < b := by
  unfold intRange at h
  rcases List.mem_map.mp h with ⟨i, hi, hix⟩
  rw [List.mem_range] at hi
  omega

theorem intRange_singleton (a : Int) : intRange a (a + 1) = [a] := by
  rw [intRange_cons (by omega), intRange_empty (by omega)]

/-- The running-total loop over the contiguous range `[a, a+n)` emits exactly
the blocks passing `emitCond`, each paired with the accumulator plus the sum
of contributions of the range up to and including that block. -/
theorem rtLoop_eq_spec (data : Table) (g k last : Int) :
    ∀ (n : Nat) (a : Int) (r : Rat),
      rtLoop data g k last (intRange a (a + n)) r =
        ((intRange a (a + n)).filter (emitCond g k last)).map
          (fun b => (b, r + sumContrib data (intRange a (b + 1)))) := by
  intro n
  induction n with
  | zero =>
    intro a r
    rw [intRange_empty (by omega)]
    rfl
  | succ m ih =>
    intro a r
    have hcons : intRange a (a + (m + 1 : Nat)) = a :: intRange (a + 1) (a + (m + 1 : Nat)) := by
      apply intRange_cons
      omega
    have hshift : (a + (m + 1 : Nat) : Int) = (a + 1) + (m : Nat) := by push_cast; ring
    rw [hcons]
    show (if emitCond g k last a then [(a, if containsKey data a then r + lookupD data a 0 else r)] else []) ++
        rtLoop data g k last (intRange (a + 1) (a + (m + 1 : Nat)))
          (if containsKey data a then r + lookupD data a 0 else r) =
      ((a :: intRange (a + 1) (a + (m + 1 : Nat))).filter (emitCond g k last)).map
        (fun b => (b, r + sumContrib data (intRange a (b + 1))))
    have hr' : (if containsKey data a then r + lookupD data a 0 else r) = r + contrib data a := by
      unfold contrib
      split <;> simp
    rw [hr', hshift, ih (a + 1) (r + contrib data a)]
    have hmap : ∀ b ∈ (intRange (a + 1) ((a + 1) + (m : Nat))).filter (emitCond g k last),
        ((b, (r + contrib data a) + sumContrib data (intRange (a + 1) (b + 1))) : Int × Rat) =
          (b, r + sumContrib data (intRange a (b + 1))) := by
      intro b hb
      have hmem := mem_intRange (List.mem_of_mem_filter hb)
      have hab : a < b + 1 := by omega
      rw [intRange_cons hab]
      unfold sumContrib
      simp only [List.map_cons, List.sum_cons]
      rw [Prod.mk.injEq]
      exact ⟨rfl, by ring⟩
    rw [List.map_congr_left hmap]
    by_cases he : emitCond g k last a
    · simp only [he, if_true, List.filter_cons, he]
      simp only [List.map_cons, List.singleton_append]
      congr 1
      rw [Prod.mk.injEq]
      refine ⟨rfl, ?_⟩
      rw [intRange_singleton]
      unfold sumContrib
      simp
    · simp only [he, if_false, List.filter_cons]
      simp [he]

/-- calculate_running_total on the empty snapshot: one zero-valued point at the
genesis block (`first_block = last_block = MERGE_BLOCK`, and the final-block
rule emits it). -/
theorem calculate_running_total_empty (g k : Int) :
    calculate_running_total g k [] = [(g, 0)] := by
  have h0 : calculate_running_total g k [] = rtLoop [] g k g (intRange g (g + 1)) 0 := rfl
  rw [h0, intRange_singleton]
  show (if emitCond g k g g then [(g, (0 : Rat))] else []) ++ [] = [(g, 0)]
  have he : emitCond g k g g = true := by
    unfold emitCond
    exact decide_eq_true (Or.inr rfl)
  rw [he]
  rfl

theorem dataFetcher_wm_step_mono (s : DataFetcherState) (u : Option Table) :
    s.last_queried_block ≤ (dataFetcherFetchData s u).last_queried_block := by
  match u with
  | none => exact le_refl _
  | some table =>
    show s.last_queried_block ≤
      (if (appFetchRows table s.last_queried_block).isEmpty then s.last_queried_block
       else maxKeyD (appFetchRows table s.last_queried_block) s.last_queried_block)
    split
    · exact le_refl _
    · next hne =>
      match hd : appFetchRows table s.last_queried_block with
      | [] => rw [hd] at hne; simp at hne
      | p :: ps =>
        have hp : p.1 ∈ dictKeys (appFetchRows table s.last_queried_block) := by
          rw [hd]; simp [dictKeys]
        have hp2 : p.1 ∈ dictKeys (table.filter (fun r => decide (s.last_queried_block < r.1))) :=
          mem_dictKeys_groupSum hp
        rcases List.mem_map.mp hp2 with ⟨q, hq, hqk⟩
        have hlt : s.last_queried_block < q.1 := by
          have := List.of_mem_filter hq
          exact of_decide_eq_true this
        calc s.last_queried_block ≤ p.1 := by omega
        _ ≤ maxKeyD (p :: ps) s.last_queried_block := le_foldl_max (dictKeys ps) p.1

/-- Every key produced by rtFetchRows is at least MERGE_BLOCK, and above the
start block when the start block is non-zero. -/
theorem rtFetchRows_key_bound {table : Table} {sb k : Int}
    (h : k ∈ dictKeys (rtFetchRows table sb)) :
    MERGE_BLOCK ≤ k ∧ (sb = 0 ∨ sb < k) := by
  have h2 := mem_dictKeys_groupSum h
  rcases List.mem_map.mp h2 with ⟨q, hq, hqk⟩
  have hfil := List.of_mem_filter hq
  rw [Bool.and_eq_true, Bool.or_eq_true] at hfil
  rcases hfil with ⟨h3, h4⟩
  constructor
  · have := of_decide_eq_true h3
    omega
  · rcases h4 with h5 | h6
    · exact Or.inl (of_decide_eq_true h5)
    · have := of_decide_eq_true h6
      omega

theorem rt_wm_step_mono (s : RTState) (now : Int) (u : Option Table) :
    s.last_fetched_block ≤ (rtGetData s now u).last_fetched_block := by
  unfold rtGetData
  split
  · match u with
    | none => exact le_refl _
    | some table =>
      show s.last_fetched_block ≤
        (if (rtFetchRows table s.last_fetched_block).isEmpty then { s with last_fetch_time := now }
         else { cached_data := dictUpdate s.cached_data (rtFetchRows table s.last_fetched_block),
                last_fetch_time := now,
                last_fetched_block :=
                  maxKeyD (rtFetchRows table s.last_fetched_block) s.last_fetched_block } :
          RTState).last_fetched_block
      split
      · exact le_refl _
      · next hne =>
        match hd : rtFetchRows table s.last_fetched_block with
        | [] => rw [hd] at hne; simp at hne
        | p :: ps =>
          have hp : p.1 ∈ dictKeys (rtFetchRows table s.last_fetched_block) := by
            rw [hd]; simp [dictKeys]
          have hb := rtFetchRows_key_bound hp
          have hMB : (0 : Int) < MERGE_BLOCK := by decide
          have hple : s.last_fetched_block ≤ p.1 := by
            rcases hb.2 with h0 | hlt <;> omega
          exact le_trans hple (le_foldl_max (dictKeys ps) p.1)
  · exact le_refl _

theorem medApp_wm_step_mono (s : MedAppState) (now : Int) (u : Option MedTable) :
    s.last_queried_block ≤ ((medAppUpdateCache s now u).1).last_queried_block := by
  unfold medAppUpdateCache
  split
  · show s.last_queried_block ≤ (medAppFetchMedianLvr s u).last_queried_block
    match u with
    | none => exact le_refl _
    | some table =>
      show s.last_queried_block ≤
        (if (medFetchRows table s.last_queried_block).isEmpty then s
         else { s with
                cached_median_lvr := dictUpdate s.cached_median_lvr
                  ((medFetchRows table s.last_queried_block).map (fun r => (r.1.toLower, r.2.1))),
                last_queried_block :=
                  maxThirdD (medFetchRows table s.last_queried_block) s.last_queried_block }
          ).last_queried_block
      split
      · exact le_refl _
      · next hne =>
        match hd : medFetchRows table s.last_queried_block with
        | [] => rw [hd] at hne; simp at hne
        | r :: rs =>
          have hr : r ∈ table.filter (fun q => decide (s.last_queried_block ≤ q.2.2)) := by
            have hmem : r ∈ medFetchRows table s.last_queried_block := by rw [hd]; simp
            simpa [medFetchRows] using hmem
          have hle : s.last_queried_block ≤ r.2.2 :=
            of_decide_eq_true (List.mem_filter.mp hr).2
          show s.last_queried_block ≤ (rs.map (fun q : String × Rat × Int => q.2.2)).foldl max r.2.2
          exact le_trans hle (le_foldl_max (rs.map (fun q : String × Rat × Int => q.2.2)) r.2.2)
  · exact le_refl _

theorem length_insertDesc (p : Int × Rat) (l : Table) :
    (insertDesc p l).length = l.length + 1 := by
  induction l with
  | nil => rfl
  | cons q qs ih =>
    unfold insertDesc
    split
    · simp
    · simp [ih]

theorem length_sortDesc (l : Table) : (sortDesc l).length = l.length := by
  induction l with
  | nil => rfl
  | cons p ps ih =>
    unfold sortDesc
    rw [length_insertDesc, ih]
    rfl

theorem retryGo_attempts_le {α : Type} (outcomes : Nat → Except UpErr α) :
    ∀ (fuel attempt : Nat), (retryGo outcomes attempt fuel).2.1 ≤ fuel := by
  intro fuel
  induction fuel with
  | zero => intro attempt; exact le_refl 0
  | succ m ih =>
    intro attempt
    unfold retryGo
    match outcomes attempt with
    | Except.ok a => simp
    | Except.error UpErr.fatal => simp
    | Except.error UpErr.retryable =>
      show (if attempt < MAX_RETRIES - 1 then
          ((retryGo outcomes (attempt + 1) m).1,
            (retryGo outcomes (attempt + 1) m).2.1 + 1,
            (retryGo outcomes (attempt + 1) m).2.2 + RETRY_DELAY)
        else (Except.error UpErr.retryable, 1, 0)).2.1 ≤ m + 1
      split
      · have := ih (attempt + 1)
        simp
        omega
      · simp

/-! ### Generic trace helpers -/

/-- Monotonicity of an integer measure along any foldl-trace of steps. -/
theorem foldl_measure_mono {σ ι : Type} (f : σ → ι → σ) (m : σ → Int)
    (h : ∀ s i, m s ≤ m (f s i)) : ∀ (l : List ι) (s : σ), m s ≤ m (l.foldl f s) := by
  intro l
  induction l with
  | nil => intro s; exact le_refl _
  | cons x xs ih => intro s; exact le_trans (h s x) (ih (f s x))

/-- Preservation of an invariant along any foldl-trace of steps. -/
theorem foldl_invariant {σ ι : Type} (f : σ → ι → σ) (P : σ → Prop)
    (h : ∀ s i, P s → P (f s i)) : ∀ (l : List ι) (s : σ), P s → P (l.foldl f s) := by
  intro l
  induction l with
  | nil => intro s hs; exact hs
  | cons x xs ih => intro s hs; exact ih (f s x) (h s x hs)

/-- Keys returned by the DataFetcher query are strictly above the queried
watermark (`block_number > last_queried_block`). -/
theorem appFetchRows_key_bound {table : Table} {w k : Int}
    (h : k ∈ dictKeys (appFetchRows table w)) : w < k := by
  have h2 := mem_dictKeys_groupSum h
  rcases List.mem_map.mp h2 with ⟨q, hq, hqk⟩
  have := of_decide_eq_true (List.mem_filter.mp hq).2
  omega

/-- Reduction of rtGetData on a raised fetch error: both the stale and the
fresh branch leave the state untouched. -/
theorem rtGetData_none (s : RTState) (now : Int) : rtGetData s now none = s := by
  unfold rtGetData
  split
  · rfl
  · rfl

/-- Reduction of rtGetData on a successful query. -/
theorem rtGetData_some_eq (s : RTState) (now : Int) (table : Table) :
    rtGetData s now (some table) =
      if RT_CACHE_TIMEOUT < now - s.last_fetch_time then
        (if (rtFetchRows table s.last_fetched_block).isEmpty then
          { s with last_fetch_time := now }
        else { cached_data := dictUpdate s.cached_data (rtFetchRows table s.last_fetched_block),
               last_fetch_time := now,
               last_fetched_block :=
                 maxKeyD (rtFetchRows table s.last_fetched_block) s.last_fetched_block })
      else s := rfl

/-! ## Claims -/

/-- C1: across every sequence of refresh cycles of each cache domain
(application.py DataFetcher, running_total.py get_data, application.py
MedianLVRFetcher), the watermark never decreases; each DataFetcher refresh
either leaves it unchanged (failure or empty result) or sets it to the
maximum block number of the result set; and it starts at the genesis
constant MERGE_BLOCK. -/
theorem claim_C1_watermark_monotone :
    (∀ (s : DataFetcherState) (trace : List (Option Table)),
      s.last_queried_block ≤ (trace.foldl dataFetcherFetchData s).last_queried_block)
    ∧ (∀ (s : RTState) (trace : List (Int × Option Table)),
      s.last_fetched_block ≤
        (trace.foldl (fun t q => rtGetData t q.1 q.2) s).last_fetched_block)
    ∧ (∀ (s : MedAppState) (trace : List (Int × Option MedTable)),
      s.last_queried_block ≤
        (trace.foldl (fun t q => (medAppUpdateCache t q.1 q.2).1) s).last_queried_block)
    ∧ (∀ (s : DataFetcherState) (table : Table),
      (appFetchRows table s.last_queried_block = [] ∧
        (dataFetcherFetchData s (some table)).last_queried_block = s.last_queried_block) ∨
      (dataFetcherFetchData s (some table)).last_queried_block =
        maxKeyD (appFetchRows table s.last_queried_block) s.last_queried_block)
    ∧ dataFetcherInit.last_queried_block = MERGE_BLOCK := by
  refine ⟨?_, ?_, ?_, ?_, rfl⟩
  · intro s trace
    exact foldl_measure_mono dataFetcherFetchData (fun t => t.last_queried_block)
      dataFetcher_wm_step_mono trace s
  · intro s trace
    exact foldl_measure_mono (fun t q => rtGetData t q.1 q.2) (fun t => t.last_fetched_block)
      (fun t q => rt_wm_step_mono t q.1 q.2) trace s
  · intro s trace
    exact foldl_measure_mono (fun t q => (medAppUpdateCache t q.1 q.2).1)
      (fun t => t.last_queried_block) (fun t q => medApp_wm_step_mono t q.1 q.2) trace s
  · intro s table
    show (appFetchRows table s.last_queried_block = [] ∧
        (if (appFetchRows table s.last_queried_block).isEmpty then s.last_queried_block
         else maxKeyD (appFetchRows table s.last_queried_block) s.last_queried_block) =
          s.last_queried_block) ∨
      (if (appFetchRows table s.last_queried_block).isEmpty then s.last_queried_block
       else maxKeyD (appFetchRows table s.last_queried_block) s.last_queried_block) =
        maxKeyD (appFetchRows table s.last_queried_block) s.last_queried_block
    by_cases he : (appFetchRows table s.last_queried_block).isEmpty
    · exact Or.inl ⟨List.isEmpty_iff.mp he, by rw [if_pos he]⟩
    · exact Or.inr (by rw [if_neg he])

/-- C7: a refresh whose upstream query succeeds with an empty result set
leaves the watermark and every cache entry unchanged, in both raw-metric
fetchers. -/
theorem claim_C7_empty_merge_noop :
    (∀ (s : DataFetcherState) (table : Table),
      appFetchRows table s.last_queried_block = [] →
        dataFetcherFetchData s (some table) = s)
    ∧ (∀ (s : RTState) (now : Int) (table : Table),
      rtFetchRows table s.last_fetched_block = [] →
        (rtGetData s now (some table)).cached_data = s.cached_data ∧
        (rtGetData s now (some table)).last_fetched_block = s.last_fetched_block) := by
  constructor
  · intro s table h
    show ({ cached_data := dictUpdate s.cached_data (appFetchRows table s.last_queried_block),
            last_queried_block :=
              if (appFetchRows table s.last_queried_block).isEmpty then s.last_queried_block
              else maxKeyD (appFetchRows table s.last_queried_block) s.last_queried_block } :
        DataFetcherState) = s
    rw [h]
    rfl
  · intro s now table h
    have hred : rtGetData s now (some table) =
        if RT_CACHE_TIMEOUT < now - s.last_fetch_time then
          (if (rtFetchRows table s.last_fetched_block).isEmpty then
            { s with last_fetch_time := now }
          else { cached_data := dictUpdate s.cached_data (rtFetchRows table s.last_fetched_block),
                 last_fetch_time := now,
                 last_fetched_block :=
                   maxKeyD (rtFetchRows table s.last_fetched_block) s.last_fetched_block })
        else s := rfl
    rw [hred, h]
    by_cases hg : RT_CACHE_TIMEOUT < now - s.last_fetch_time
    · rw [if_pos hg]
      exact ⟨rfl, rfl⟩
    · rw [if_neg hg]
      exact ⟨rfl, rfl⟩

/-- C7 witness: the empty upstream table yields the empty result set, and the
refresh is then a complete no-op on the initial DataFetcher state. -/
theorem claim_C7_witness :
    appFetchRows [] dataFetcherInit.last_queried_block = [] ∧
      dataFetcherFetchData dataFetcherInit (some []) = dataFetcherInit :=
  ⟨rfl, claim_C7_empty_merge_noop.1 dataFetcherInit [] rfl⟩

/-- C4 counterexample: a due refresh (now = 1000, last_fetch_time = 0) whose
fetch raises after exhausting retries leaves `last_fetch_time` at 0 — it is
NOT updated to the current time, contrary to the claim, because the
`last_fetch_time = current_time` assignment sits inside the `try` block of
running_total.py get_data. -/
theorem claim_C4_counterexample :
    (rtGetData { cached_data := [], last_fetch_time := 0, last_fetched_block := MERGE_BLOCK }
      1000 none).last_fetch_time = 0 ∧ (0 : Int) ≠ 1000 := by
  exact ⟨rfl, by decide⟩

/-- C4 (amended): a refresh whose fetch raises after exhausting retries is a
complete no-op in running_total.py get_data and median.py get_median_lvr —
watermark and cache unchanged as claimed, but `last_refresh_time` is also
unchanged, so the next due read retries the upstream immediately. -/
theorem claim_C4_failure_total_noop :
    (∀ (s : RTState) (now : Int), rtGetData s now none = s)
    ∧ (∀ (s : MedPyState) (now : Int), medpyGetMedianLvr s now none = s) := by
  constructor
  · intro s now
    unfold rtGetData
    split
    · rfl
    · rfl
  · intro s now
    unfold medpyGetMedianLvr
    split
    · rfl
    · rfl

/-- C6 (amended, confirmable part): the staleness-gated entry points —
block_LVR.py update_cache, application.py MedianLVRFetcher.update_cache and
running_total.py get_data — are a complete no-op and issue no upstream query
when `now - last_refresh_time <= refresh_interval`. -/
theorem claim_C6_gate_skip :
    (∀ (s : BlockLVRState) (now : Int) (u : Option Table),
      now - s.last_update_time ≤ BLOCK_UPDATE_INTERVAL → blockUpdateCache s now u = (s, false))
    ∧ (∀ (s : MedAppState) (now : Int) (u : Option MedTable),
      now - s.last_update_time ≤ APP_CACHE_TIMEOUT → medAppUpdateCache s now u = (s, false))
    ∧ (∀ (s : RTState) (now : Int) (u : Option Table),
      now - s.last_fetch_time ≤ RT_CACHE_TIMEOUT → rtGetData s now u = s) := by
  refine ⟨?_, ?_, ?_⟩
  · intro s now u h
    unfold blockUpdateCache
    rw [if_neg (by omega)]
  · intro s now u h
    unfold medAppUpdateCache
    rw [if_neg (by omega)]
  · intro s now u h
    unfold rtGetData
    rw [if_neg (by omega)]

/-- C6 witness: at time 0 with a fresh timestamp, block_LVR.py update_cache
skips entirely. -/
theorem claim_C6_witness :
    (0 : Int) - blockInit.last_update_time ≤ BLOCK_UPDATE_INTERVAL ∧
      blockUpdateCache blockInit 0 (some [(1, 1)]) = (blockInit, false) :=
  ⟨by decide, claim_C6_gate_skip.1 blockInit 0 (some [(1, 1)]) (by decide)⟩

/-- C6 counterexample: in application.py the read endpoint /lvr_running_total
is NOT staleness-gated — `DataFetcher` has no refresh timestamp at all, and
the handler calls fetch_data unconditionally, so a single request mutates the
watermark regardless of any "now - last_refresh_time <= refresh_interval"
condition (which cannot even be stated for this fetcher). -/
theorem claim_C6_counterexample :
    (appGetLvrRunningTotal dataFetcherInit (some [(15537394, 1)])).1.last_queried_block ≠
      dataFetcherInit.last_queried_block := by
  decide

/-- C8 counterexample: running_total.py initialize_cache fetches with the
inclusive bound `block_number >= MERGE_BLOCK` (fetch_data with
start_block=None), so a row exactly at the genesis block enters the cache as
a key `k` with `k = MERGE_BLOCK`, violating the claimed strict `k > genesis`. -/
theorem claim_C8_counterexample :
    MERGE_BLOCK ∈ dictKeys ((rtInitCache (some [(MERGE_BLOCK, 1)])).cached_data) ∧
      ¬ MERGE_BLOCK < MERGE_BLOCK := by
  exact ⟨by decide, by decide⟩

/-- C8 (amended): in every reachable state, every raw-metric cache key `k`
satisfies `k >= genesis`; the strict bound `k > genesis` does hold for
application.py's DataFetcher (whose query bound is strictly above the
watermark from the start), but running_total.py's initialization admits
`k = genesis`. -/
theorem claim_C8_keys_ge_genesis :
    (∀ (u : Option Table) (trace : List (Int × Option Table)) (k : Int),
      k ∈ dictKeys ((trace.foldl (fun t q => rtGetData t q.1 q.2) (rtInitCache u)).cached_data) →
        MERGE_BLOCK ≤ k)
    ∧ (∀ (trace : List (Option Table)) (k : Int),
      k ∈ dictKeys ((trace.foldl dataFetcherFetchData dataFetcherInit).cached_data) →
        MERGE_BLOCK < k) := by
  constructor
  · intro u trace k hk
    have hinv := foldl_invariant (fun t q => rtGetData t q.1 q.2)
      (fun t => ∀ k' ∈ dictKeys t.cached_data, MERGE_BLOCK ≤ k') ?hstep trace (rtInitCache u) ?hinit
    · exact hinv k hk
    case hstep =>
      intro s q hP k' hk0
      obtain ⟨tnow, uo⟩ := q
      have hk' : k' ∈ dictKeys (rtGetData s tnow uo).cached_data := hk0
      cases uo with
      | none =>
        rw [rtGetData_none] at hk'
        exact hP k' hk'
      | some table =>
        rw [rtGetData_some_eq] at hk'
        by_cases hg : RT_CACHE_TIMEOUT < tnow - s.last_fetch_time
        · rw [if_pos hg] at hk'
          by_cases he : (rtFetchRows table s.last_fetched_block).isEmpty
          · rw [if_pos he] at hk'
            exact hP k' hk'
          · rw [if_neg he] at hk'
            rcases mem_dictKeys_dictUpdate hk' with h1 | h2
            · exact hP k' h1
            · exact (rtFetchRows_key_bound h2).1
        · rw [if_neg hg] at hk'
          exact hP k' hk'
    case hinit =>
      intro k' hk'
      cases u with
      | none => simp [rtInitCache, dictKeys] at hk'
      | some table =>
        have hk2 : k' ∈ dictKeys (rtFetchRows table 0) := hk'
        exact (rtFetchRows_key_bound hk2).1
  · intro trace k hk
    have hinv := foldl_invariant dataFetcherFetchData
      (fun t => (∀ k' ∈ dictKeys t.cached_data, MERGE_BLOCK < k') ∧
        MERGE_BLOCK ≤ t.last_queried_block) ?hstep trace dataFetcherInit ?hinit
    · exact hinv.1 k hk
    case hstep =>
      intro s u hP
      refine ⟨?_, le_trans hP.2 (dataFetcher_wm_step_mono s u)⟩
      intro k' hk'
      cases u with
      | none => exact hP.1 k' hk'
      | some table =>
        have hk2 : k' ∈ dictKeys (dictUpdate s.cached_data
            (appFetchRows table s.last_queried_block)) := hk'
        rcases mem_dictKeys_dictUpdate hk2 with h1 | h2
        · exact hP.1 k' h1
        · have := appFetchRows_key_bound h2
          have := hP.2
          omega
    case hinit =>
      exact ⟨fun k' hk' => by simp [dataFetcherInit, dictKeys] at hk', le_refl _⟩

/-- C8 witness: a block just above genesis fetched at initialization is a
cache key, and it satisfies the amended bound. -/
theorem claim_C8_witness :
    (MERGE_BLOCK + 1) ∈
        dictKeys ((rtInitCache (some [(MERGE_BLOCK + 1, 1)])).cached_data) ∧
      MERGE_BLOCK ≤ MERGE_BLOCK + 1 :=
  ⟨by decide,
    claim_C8_keys_ge_genesis.1 (some [(MERGE_BLOCK + 1, 1)]) [] (MERGE_BLOCK + 1) (by decide)⟩

/-- The table view rejects exactly the pages outside [1, total_pages]. -/
theorem get_lvr_table_invalidPage_iff (cache : Table) (page wm : Int) :
    get_lvr_table cache page wm = TableResponse.invalidPage ↔
      (page < 1 ∨ totalPagesOf cache.length < page) := by
  simp only [get_lvr_table]
  rw [length_sortDesc]
  split
  · next h => simp [h]
  · next h => simp [h]

/-- C3 counterexample: with an empty cache, Python's
`(len - 1) // PAGE_SIZE + 1` is `(-1) // 100 + 1 = 0`, not the claimed floor
of 1, so even page 1 is rejected with the "Invalid page number" error. -/
theorem claim_C3_counterexample :
    get_lvr_table [] 1 0 = TableResponse.invalidPage ∧ totalPagesOf 0 = 0 := by
  exact ⟨rfl, rfl⟩

/-- C3 (amended): total_pages is `ceil(count / PAGE_SIZE)` for a non-empty
cache but `0` for an empty one (so every page, including 1, is rejected when
the cache is empty); a page is rejected exactly when it lies outside
[1, total_pages]; an accepted page returns the corresponding consecutive
PAGE_SIZE-slice of the descending-sorted entries; with 250 entries
total_pages = 3, page 4 is rejected, pages 1-2 hold 100 rows and page 3 the
50-row remainder. -/
theorem claim_C3_table_pagination :
    (∀ n : Nat, totalPagesOf n = if n = 0 then 0 else (((n + 99) / 100 : Nat) : Int))
    ∧ (∀ (cache : Table) (page wm : Int),
        get_lvr_table cache page wm = TableResponse.invalidPage ↔
          (page < 1 ∨ totalPagesOf cache.length < page))
    ∧ (∀ (cache : Table) (page wm : Int),
        ¬(page < 1 ∨ totalPagesOf cache.length < page) →
          get_lvr_table cache page wm =
            TableResponse.page
              (pySlice (sortDesc cache) ((page - 1) * PAGE_SIZE)
                ((page - 1) * PAGE_SIZE + PAGE_SIZE))
              (totalPagesOf cache.length) page wm)
    ∧ (∀ (cache : Table) (wm : Int), cache.length = 250 →
        totalPagesOf cache.length = 3 ∧
        get_lvr_table cache 4 wm = TableResponse.invalidPage ∧
        (∀ pg : Int, 1 ≤ pg → pg ≤ 3 →
          get_lvr_table cache pg wm =
            TableResponse.page
              (pySlice (sortDesc cache) ((pg - 1) * PAGE_SIZE) ((pg - 1) * PAGE_SIZE + PAGE_SIZE))
              3 pg wm ∧
          (pySlice (sortDesc cache) ((pg - 1) * PAGE_SIZE)
            ((pg - 1) * PAGE_SIZE + PAGE_SIZE)).length = if pg = 3 then 50 else 100)) := by
  refine ⟨?_, get_lvr_table_invalidPage_iff, ?_, ?_⟩
  · intro n
    unfold totalPagesOf PAGE_SIZE
    rw [Int.fdiv_eq_ediv _ (by norm_num)]
    split
    · omega
    · omega
  · intro cache page wm h
    simp only [get_lvr_table]
    rw [length_sortDesc]
    rw [if_neg h]
  · intro cache wm h250
    have htp : totalPagesOf cache.length = 3 := by rw [h250]; rfl
    refine ⟨htp, ?_, ?_⟩
    · rw [get_lvr_table_invalidPage_iff, htp]
      omega
    · intro pg h1 h3
      have hnot : ¬(pg < 1 ∨ totalPagesOf cache.length < pg) := by rw [htp]; omega
      constructor
      · simp only [get_lvr_table]
        rw [length_sortDesc, if_neg hnot, htp]
      · have hlen : (sortDesc cache).length = 250 := by rw [length_sortDesc, h250]
        unfold pySlice
        rw [List.length_take, List.length_drop, hlen]
        unfold PAGE_SIZE
        interval_cases pg
        · decide
        · decide
        · decide

/-- C3 witness: a concrete 250-entry cache has 3 pages and rejects page 4. -/
theorem claim_C3_witness :
    ((List.range 250).map (fun i : Nat => ((i : Int), (0 : Rat)))).length = 250 ∧
      get_lvr_table ((List.range 250).map (fun i : Nat => ((i : Int), (0 : Rat)))) 4 0 =
        TableResponse.invalidPage :=
  ⟨by simp, (claim_C3_table_pagination.2.2.2
      ((List.range 250).map (fun i : Nat => ((i : Int), (0 : Rat)))) 0 (by simp)).2.1⟩

/-- pyParseInt agrees with CPython int() on the PEP 515 underscore forms:
`int("1_0") == 10`, while misplaced underscores raise. -/
theorem pyParseInt_underscores :
    pyParseInt "1_0" = some 10 ∧ pyParseInt "1__0" = none ∧
      pyParseInt "_1" = none ∧ pyParseInt "1_" = none :=
  ⟨rfl, rfl, rfl, rfl⟩

/-- pyParseInt agrees with CPython int() on non-ASCII decimal digits and
whitespace: Arabic-Indic digits, fullwidth digits after a sign, ideographic
spaces around the number, and a rejected space between sign and digits. -/
theorem pyParseInt_unicode :
    pyParseInt "١٢" = some 12 ∧ pyParseInt "-１０" = some (-10) ∧
      pyParseInt " 　 42 　" = some 42 ∧ pyParseInt "+ 12" = none :=
  ⟨rfl, rfl, rfl, rfl⟩

/-- C10: when the page query parameter is present but not an integer string,
`int(request.args.get('page', 1))` raises before the cache is read or the
page range is checked, so the request ends as an uncaught error (HTTP 500 via
Flask), never as the distinct 400 invalid-page response; the 400 path is
reached only for a successfully parsed integer outside [1, total_pages]. -/
theorem claim_C10_page_parse :
    (∀ (s : DataFetcherState) (u : Option Table) (str : String),
      pyParseInt str = none →
        (appGetLvrTableHandler s u (some str)).2 = HttpOutcome.uncaughtError)
    ∧ (∀ (s : DataFetcherState) (u : Option Table) (str : String),
        (appGetLvrTableHandler s u (some str)).2 = HttpOutcome.badPage →
          ∃ p : Int, pyParseInt str = some p ∧
            (p < 1 ∨ totalPagesOf (dataFetcherFetchData s u).cached_data.length < p)) := by
  have hred : ∀ (s : DataFetcherState) (u : Option Table) (str : String),
      appGetLvrTableHandler s u (some str) =
        (match pyParseInt str with
         | none => (dataFetcherFetchData s u, HttpOutcome.uncaughtError)
         | some page =>
           match get_lvr_table (dataFetcherFetchData s u).cached_data page
               (dataFetcherFetchData s u).last_queried_block with
           | TableResponse.invalidPage => (dataFetcherFetchData s u, HttpOutcome.badPage)
           | TableResponse.page d tp cp wm =>
             (dataFetcherFetchData s u, HttpOutcome.ok (TableResponse.page d tp cp wm))) :=
    fun _ _ _ => rfl
  constructor
  · intro s u str h
    rw [hred, h]
  · intro s u str h
    rw [hred] at h
    cases hpp : pyParseInt str with
    | none =>
      rw [hpp] at h
      simp at h
    | some p =>
      rw [hpp] at h
      have h2 : (match get_lvr_table (dataFetcherFetchData s u).cached_data p
          (dataFetcherFetchData s u).last_queried_block with
        | TableResponse.invalidPage => (dataFetcherFetchData s u, HttpOutcome.badPage)
        | TableResponse.page d tp cp wm =>
          (dataFetcherFetchData s u, HttpOutcome.ok (TableResponse.page d tp cp wm))).2 =
          HttpOutcome.badPage := h
      cases hq : get_lvr_table (dataFetcherFetchData s u).cached_data p
          (dataFetcherFetchData s u).last_queried_block with
      | invalidPage =>
        exact ⟨p, rfl, (get_lvr_table_invalidPage_iff _ p _).mp hq⟩
      | page d tp cp wm =>
        rw [hq] at h2
        simp at h2

/-- C10 witness: the non-integer page parameter "abc" fails to parse and the
request is an uncaught error, not a 400. -/
theorem claim_C10_witness :
    pyParseInt "abc" = none ∧
      (appGetLvrTableHandler dataFetcherInit none (some "abc")).2 = HttpOutcome.uncaughtError :=
  ⟨rfl, claim_C10_page_parse.1 dataFetcherInit none "abc" rfl⟩

/-- A refresh cycle never shrinks the median cache. -/
theorem medAppUpdateCache_cache_length (s : MedAppState) (now : Int) (u : Option MedTable) :
    s.cached_median_lvr.length ≤ ((medAppUpdateCache s now u).1).cached_median_lvr.length := by
  unfold medAppUpdateCache
  split
  · show s.cached_median_lvr.length ≤ (medAppFetchMedianLvr s u).cached_median_lvr.length
    cases u with
    | none => exact le_refl _
    | some table =>
      show s.cached_median_lvr.length ≤
        (if (medFetchRows table s.last_queried_block).isEmpty then s
         else { s with
                cached_median_lvr := dictUpdate s.cached_median_lvr
                  ((medFetchRows table s.last_queried_block).map (fun r => (r.1.toLower, r.2.1))),
                last_queried_block :=
                  maxThirdD (medFetchRows table s.last_queried_block) s.last_queried_block }
          ).cached_median_lvr.length
      split
      · exact le_refl _
      · exact length_le_dictUpdate s.cached_median_lvr _
  · exact le_refl _

/-- C9 counterexample: the median.py variant of the endpoint (cited by the
claim) has no error branch: with an empty cache and a due refresh attempt that
fails, the cache is empty after the attempt yet the response is the plain
empty list (HTTP 200), not the claimed distinct 500 error — the
"error exactly when the cache is empty after the refresh attempt"
biconditional is false for this view. -/
theorem claim_C9_counterexample :
    (medpyGetMedianLvrApi
        { cached_median_lvr := [], last_fetch_time := 0, last_queried_block := MERGE_BLOCK }
        1000 none).1 = Except.ok [] ∧
      ((medpyGetMedianLvrApi
        { cached_median_lvr := [], last_fetch_time := 0, last_queried_block := MERGE_BLOCK }
        1000 none).2).cached_median_lvr = [] ∧
      (medpyGetMedianLvrApi
        { cached_median_lvr := [], last_fetch_time := 0, last_queried_block := MERGE_BLOCK }
        1000 none).1 ≠ Except.error "No median LVR data available" := by
  refine ⟨rfl, rfl, ?_⟩
  intro h
  have h2 : (Except.ok ([] : List (String × Rat)) :
      Except String (List (String × Rat))) = Except.error "No median LVR data available" := h
  simp at h2

/-- C9 (amended): in application.py's median view the 500 "no data" error is
returned exactly when the cache is empty after the refresh attempt, otherwise
the response is the full cache as (pool_address, median_lvr) pairs, and a
transient refresh failure after any refresh that left data never yields the
error; median.py's variant of the endpoint, by contrast, has no error branch
at all and always answers the (possibly empty) cached list with HTTP 200. -/
theorem claim_C9_median_view :
    (∀ (s : MedAppState) (now : Int) (u : Option MedTable),
      ((appGetMedianLvrApi s now u).1 = Except.error "No median LVR data available" ↔
        ((appGetMedianLvrApi s now u).2).cached_median_lvr = [])
      ∧ (((appGetMedianLvrApi s now u).2).cached_median_lvr ≠ [] →
        (appGetMedianLvrApi s now u).1 =
          Except.ok (((appGetMedianLvrApi s now u).2).cached_median_lvr))
      ∧ (s.cached_median_lvr ≠ [] →
        (appGetMedianLvrApi s now u).1 =
          Except.ok (((appGetMedianLvrApi s now u).2).cached_median_lvr)))
    ∧ (∀ (s : MedPyState) (now : Int) (u : Option MedTable),
      (medpyGetMedianLvrApi s now u).1 =
        Except.ok (((medpyGetMedianLvrApi s now u).2).cached_median_lvr)) := by
  refine ⟨?_, fun s now u => rfl⟩
  intro s now u
  have hpair : appGetMedianLvrApi s now u =
      (if ((medAppUpdateCache s now u).1).cached_median_lvr.isEmpty then
        Except.error "No median LVR data available"
      else Except.ok ((medAppUpdateCache s now u).1).cached_median_lvr,
        (medAppUpdateCache s now u).1) := rfl
  rw [hpair]
  by_cases he : ((medAppUpdateCache s now u).1).cached_median_lvr.isEmpty
  · rw [if_pos he]
    have he' := List.isEmpty_iff.mp he
    refine ⟨by simp [he'], ?_, ?_⟩
    · intro hne
      exact absurd he' hne
    · intro hs
      have hlen := medAppUpdateCache_cache_length s now u
      rw [he'] at hlen
      simp at hlen
      exact absurd hlen hs
  · rw [if_neg he]
    have he' : ((medAppUpdateCache s now u).1).cached_median_lvr ≠ [] := by
      intro hc
      exact he (by rw [hc]; rfl)
    refine ⟨?_, fun _ => rfl, fun _ => rfl⟩
    constructor
    · intro hc
      exact absurd hc (by simp)
    · intro hc
      exact absurd hc he'

/-- C9 witness: with a populated cache and a refresh attempt that fails, the
view still answers the cached data, not the error. -/
theorem claim_C9_witness :
    (appGetMedianLvrApi
        { cached_median_lvr := [("a", 1)], last_queried_block := MERGE_BLOCK,
          last_update_time := 0 } 1000 none).1 =
      Except.ok ((appGetMedianLvrApi
        { cached_median_lvr := [("a", 1)], last_queried_block := MERGE_BLOCK,
          last_update_time := 0 } 1000 none).2).cached_median_lvr :=
  (claim_C9_median_view.1
    { cached_median_lvr := [("a", 1)], last_queried_block := MERGE_BLOCK,
      last_update_time := 0 } 1000 none).2.2 (by simp)

/-- C5 (amended): in running_total.py fetch_data and median.py
fetch_median_lvr, retryable failures (ProtocolError/ClickHouseError) are
re-attempted up to MAX_RETRIES with the fixed RETRY_DELAY between attempts
(no growth), the failure surfacing only once the budget is exhausted, a fatal
exception propagates after a single attempt, and no call makes more than
MAX_RETRIES attempts; application.py's DataFetcher.fetch_data, by contrast,
absorbs a retryable failure after a single attempt (see the counterexample). -/
theorem claim_C5_retry_policy :
    (∀ (o : Nat → Except UpErr Table),
      (∀ i, i < MAX_RETRIES → o i = Except.error UpErr.retryable) →
        fetchWithRetry o =
          (Except.error UpErr.retryable, MAX_RETRIES, (MAX_RETRIES - 1) * RETRY_DELAY))
    ∧ (∀ (o : Nat → Except UpErr Table) (t : Table),
        o 0 = Except.ok t → fetchWithRetry o = (Except.ok t, 1, 0))
    ∧ (∀ (o : Nat → Except UpErr Table),
        o 0 = Except.error UpErr.fatal → fetchWithRetry o = (Except.error UpErr.fatal, 1, 0))
    ∧ (∀ (o : Nat → Except UpErr Table), (fetchWithRetry o).2.1 ≤ MAX_RETRIES) := by
  refine ⟨?_, ?_, ?_, ?_⟩
  · intro o h
    have h0 := h 0 (by norm_num [MAX_RETRIES])
    have h1 := h 1 (by norm_num [MAX_RETRIES])
    have h2 := h 2 (by norm_num [MAX_RETRIES])
    show retryGo o 0 MAX_RETRIES = _
    rw [show MAX_RETRIES = 3 from rfl]
    unfold retryGo
    rw [h0]
    rw [if_pos (by norm_num [MAX_RETRIES])]
    unfold retryGo
    rw [h1]
    rw [if_pos (by norm_num [MAX_RETRIES])]
    unfold retryGo
    rw [h2]
    rw [if_neg (by norm_num [MAX_RETRIES])]
    rfl
  · intro o t h
    show retryGo o 0 MAX_RETRIES = _
    rw [show MAX_RETRIES = 3 from rfl]
    unfold retryGo
    rw [h]
  · intro o h
    show retryGo o 0 MAX_RETRIES = _
    rw [show MAX_RETRIES = 3 from rfl]
    unfold retryGo
    rw [h]
  · intro o
    exact retryGo_attempts_le o MAX_RETRIES 0

/-- C5 witness: an upstream that fails retryably on every attempt is retried
exactly MAX_RETRIES = 3 times with two fixed 5-second delays, and the
retryable failure is then surfaced. -/
theorem claim_C5_witness :
    fetchWithRetry (fun _ => (Except.error UpErr.retryable : Except UpErr Table)) =
      (Except.error UpErr.retryable, MAX_RETRIES, (MAX_RETRIES - 1) * RETRY_DELAY) :=
  claim_C5_retry_policy.1 (fun _ => Except.error UpErr.retryable) (fun _ _ => rfl)

/-- C5 counterexample: application.py's DataFetcher.fetch_data (one of the
claim's cited fetch sites) makes exactly one attempt on a retryable failure —
not MAX_RETRIES — and converts it into a successful empty result instead of
surfacing it. -/
theorem claim_C5_counterexample :
    dataFetcherAttempt (Except.error UpErr.retryable) = (Except.ok [], 1) ∧
      (1 : Nat) ≠ MAX_RETRIES := by
  exact ⟨rfl, by decide⟩

/-- C2: calculate_running_total walks every integer block from min(keys) to
max(keys) inclusive, accumulating `snapshot[block]` when present and 0
otherwise, and emits exactly the blocks where
`(block - genesis) % BLOCK_RANGE == 0` or `block == max(keys)`, each paired
with the accumulated prefix sum; the empty snapshot yields the single point
(genesis, 0); and for cache {100: 5.0, 102: 3.0} with genesis 100 and a
single bucket the final point's running total is 8.0. -/
theorem claim_C2_running_total :
    (∀ (g k : Int) (data : Table),
      calculate_running_total g k data =
        ((intRange (minKeyD data g) (maxKeyD data g + 1)).filter
            (emitCond g k (maxKeyD data g))).map
          (fun b => (b, sumContrib data (intRange (minKeyD data g) (b + 1)))))
    ∧ (∀ g k : Int, calculate_running_total g k [] = [(g, 0)])
    ∧ calculate_running_total 100 BLOCK_RANGE [(100, 5), (102, 3)] = [(100, 5), (102, 8)] := by
  refine ⟨?_, calculate_running_total_empty, ?_⟩
  · intro g k data
    have h0 : calculate_running_total g k data =
        rtLoop data g k (maxKeyD data g) (intRange (minKeyD data g) (maxKeyD data g + 1)) 0 :=
      rfl
    have hfl : minKeyD data g ≤ maxKeyD data g + 1 := by
      cases data with
      | nil => show g ≤ g + 1; omega
      | cons p ps =>
        have := minKeyD_le_maxKeyD (List.cons_ne_nil p ps) g g
        omega
    obtain ⟨n, hn⟩ : ∃ n : Nat, maxKeyD data g + 1 = minKeyD data g + (n : Int) :=
      ⟨(maxKeyD data g + 1 - minKeyD data g).toNat, by omega⟩
    rw [h0, hn, rtLoop_eq_spec data g k (maxKeyD data g) n (minKeyD data g) 0]
    apply List.map_congr_left
    intro b _
    rw [zero_add]
  · norm_num [calculate_running_total, minKeyD, maxKeyD, dictKeys, intRange, rtLoop, emitCond,
      containsKey, lookupD, BLOCK_RANGE, List.range_succ, List.find?]
